import Mathlib

/-!
Shallow embedding of `notifications_plugin/workflow_notifications.py`.

The plugin hooks two document lifecycle events of the host framework:
`check_workflow_state_change` (validate: record the pre-save workflow state
in a process-local cache `_previous_states`) and
`handle_workflow_transition` (on_update: detect a state transition, resolve
recipients and hand the emails to the notification transport).

External collaborators (ORM, metadata, role store, session, transport) are
modelled by an explicit environment `Env`.  Calls that the Python code wraps
in try/except are modelled as `Except Unit` computations whose failure is
driven by boolean fault flags in `Env.faults`; the embedded functions contain
the same handlers the Python code has, so faults are swallowed at exactly the
places the source swallows exceptions.

Python truthiness of string-valued fields (None and the empty string are
falsy) is modelled by `truthy : Option String → Bool`.  The module-level dict
`_previous_states` is modelled as an association list threaded through the
two entry points.  Sets of recipients and of delivered emails are
`Finset String`: Python builds lists from sets whose iteration order is
unspecified, and no claim depends on order or duplicates.
-/

/-- A row of the host's User table: identity, email, enabled flag. -/
structure User where
  name : String
  email : String
  enabled : Bool
deriving DecidableEq

/-- A row of the host's Employee table with its optional linked user. -/
structure Employee where
  name : String
  user_id : Option String
deriving DecidableEq

/-- A row of the host's `Has Role` child table. -/
structure HasRoleRow where
  role : String
  parenttype : String
  parent : String
deriving DecidableEq

/-- A row of the workflow's transition child table:
`state` is the from-state, `next_state` the to-state, `allowed` the role. -/
structure TransitionRow where
  state : Option String
  next_state : Option String
  allowed : Option String
  role : Option String
deriving DecidableEq

/-- A `Workflow` document as loaded by `get_workflow_for_doctype`. -/
structure Workflow where
  name : String
  workflow_name : String
  document_type : String
  is_active : Bool
  workflow_state_field : String
  transitions : List TransitionRow
deriving DecidableEq

/-- A `Workflow Transition` row as stored in the database (direct query
fallback); carries its parent workflow name. -/
structure DbTransitionRow where
  parent : String
  state : Option String
  next_state : Option String
  allowed : Option String
  role : Option String
deriving DecidableEq

/-- A row of the document's `custom_extra_notification_recipients_` child
table. -/
structure ExtraRecipientRow where
  role : Option String
deriving DecidableEq

/-- The in-memory document handed to the lifecycle hooks.  Scalar fields are
an association list (`doc.get`); the extra-recipients child table is kept
separately. -/
structure Doc where
  doctype : String
  docname : String
  fields : List (String × String)
  extraRecipients : List ExtraRecipientRow
deriving DecidableEq

/-- A persisted document in the database (`frappe.db.exists` /
`frappe.db.get_value`). -/
structure DbRecord where
  doctype : String
  name : String
  fields : List (String × String)
deriving DecidableEq

/-- Fault flags: each flag makes the corresponding collaborator call raise.
They model the storage/metadata exceptions the Python code catches. -/
structure Faults where
  loadWorkflow : Bool
  meta : Bool
  dbExists : Bool
  getValuePre : Bool
  getValueFallback : Bool
  transitionQuery : Bool
  hasRoleQuery : Bool
  getRoles : Bool
  getUrl : Bool
  emailLookup : Bool
deriving DecidableEq

/-- The fault-free environment configuration. -/
def noFaults : Faults :=
  ⟨false, false, false, false, false, false, false, false, false, false⟩

/-- The host framework state visible to the plugin. -/
structure Env where
  workflows : List Workflow
  meta : List (String × List String)
  dbRecords : List DbRecord
  dbTransitions : List DbTransitionRow
  users : List User
  employees : List Employee
  hasRoleRows : List HasRoleRow
  sessionUser : String
  faults : Faults

/-- Python truthiness for optional string values: None and "" are falsy. -/
def truthy : Option String → Bool
  | none => false
  | some s => s != ""

/-- Python `a or b` on two optional string values. -/
def pyOr (a b : Option String) : Option String :=
  if truthy a then a else b

/-- Model of `doc.get(field)` for scalar fields. -/
def docGet (doc : Doc) (f : String) : Option String :=
  doc.fields.lookup f

/-- Model of `hasattr(doc, field)` for scalar fields. -/
def docHasAttr (doc : Doc) (f : String) : Bool :=
  (doc.fields.lookup f).isSome

/-- The cache key: doctype and document name joined by a colon. -/
def cacheKey (doc : Doc) : String :=
  doc.doctype ++ ":" ++ doc.docname

/-- The module-level dict `_previous_states`; values may be stored `None`. -/
abbrev Cache := List (String × Option String)

/-- Model of `_previous_states.get(key)`: absent key and stored None coincide. -/
def cacheGet (c : Cache) (k : String) : Option String :=
  (c.lookup k).join

/-- Model of `key in _previous_states`. -/
def cacheHasKey (c : Cache) (k : String) : Bool :=
  (c.lookup k).isSome

/-- Model of the dict update `_previous_states[key] = v` (at most one entry per key). -/
def cacheSet (c : Cache) (k : String) (v : Option String) : Cache :=
  (k, v) :: c.filter (fun p => p.1 != k)

/-- Model of `del _previous_states[key]` (guarded by `key in` in the source). -/
def cacheDel (c : Cache) (k : String) : Cache :=
  c.filter (fun p => p.1 != k)

/-- Field list of `frappe.get_meta(doctype)`. -/
def metaFieldsOf (env : Env) (dt : String) : List String :=
  (env.meta.lookup dt).getD []

/-- Model of `frappe.get_meta(doctype)`, fallible. -/
def getMeta (env : Env) (dt : String) : Except Unit (List String) :=
  if env.faults.meta then .error () else .ok (metaFieldsOf env dt)

/-- Model of `meta.has_field(f)`. -/
def metaHasField (fieldsList : List String) (f : String) : Bool :=
  fieldsList.contains f

/-- Locate a persisted document. -/
def dbFind (env : Env) (dt n : String) : Option DbRecord :=
  env.dbRecords.find? (fun r => r.doctype == dt && r.name == n)

/-- Model of `frappe.db.exists(doctype, name)`, fallible. -/
def dbExistsE (env : Env) (dt n : String) : Except Unit Bool :=
  if env.faults.dbExists then .error () else .ok (dbFind env dt n).isSome

/-- Model of `frappe.db.get_value(doctype, name, field)`. -/
def dbGetValue (env : Env) (dt n f : String) : Option String :=
  (dbFind env dt n).bind (fun r => r.fields.lookup f)

/-- The `db.get_value` call of `check_workflow_state_change`, fallible. -/
def dbGetValuePreE (env : Env) (dt n f : String) : Except Unit (Option String) :=
  if env.faults.getValuePre then .error () else .ok (dbGetValue env dt n f)

/-- The `db.get_value` call of the cache-miss fallback in
`handle_workflow_transition`, fallible. -/
def dbGetValueFallbackE (env : Env) (dt n f : String) : Except Unit (Option String) :=
  if env.faults.getValueFallback then .error () else .ok (dbGetValue env dt n f)

/-- Model of `get_workflow_for_doctype`: first active workflow for the doctype; its
internal try/except turns any load failure into `None`. -/
def get_workflow_for_doctype (env : Env) (dt : String) : Option Workflow :=
  if env.faults.loadWorkflow then none
  else env.workflows.find? (fun w => w.document_type == dt && w.is_active)

/-- State-field resolution shared by both hooks: the workflow's configured
field if the schema has it, else the conventional "status" field, else none
(skip). -/
def resolve_state_field (wf : Workflow) (fieldsList : List String) : Option String :=
  if metaHasField fieldsList wf.workflow_state_field then some wf.workflow_state_field
  else if metaHasField fieldsList "status" then some "status"
  else none

/-- The inner try of `check_workflow_state_change` (meta introspection plus
previous-value query; on success writes the cache entry). -/
def check_inner (env : Env) (doc : Doc) (wf : Workflow) (c : Cache) : Except Unit Cache :=
  match getMeta env doc.doctype with
  | .error e => .error e
  | .ok mf =>
    match resolve_state_field wf mf with
    | none => .ok c
    | some sf =>
      match dbGetValuePreE env doc.doctype doc.docname sf with
      | .error e => .error e
      | .ok pv => .ok (cacheSet c (cacheKey doc) pv)

/-- The outer try of `check_workflow_state_change`: existing documents go
through `check_inner` (whose failures leave the cache untouched), new
documents record a `None` previous state. -/
def check_body (env : Env) (doc : Doc) (wf : Workflow) (c : Cache) : Except Unit Cache :=
  if doc.docname ≠ "" then
    match dbExistsE env doc.doctype doc.docname with
    | .error e => .error e
    | .ok ex =>
      if ex then
        match check_inner env doc wf c with
        | .ok c2 => .ok c2
        | .error _ => .ok c
      else .ok (cacheSet c (cacheKey doc) none)
  else .ok (cacheSet c (cacheKey doc) none)

/-- The `validate` hook: store the previous workflow state.  No workflow ⇒
no-op; any escaped error of the body is swallowed, leaving the cache as-is. -/
def check_workflow_state_change (env : Env) (doc : Doc) (c : Cache) : Cache :=
  match get_workflow_for_doctype env doc.doctype with
  | none => c
  | some wf =>
    match check_body env doc wf c with
    | .ok c2 => c2
    | .error _ => c

/-- Helper of `get_users_for_role`: scan the fixed priority list of document
fields for the first populated value. -/
def first_populated_value (doc : Doc) : Option String :=
  (List.find? (fun f => docHasAttr doc f && truthy (docGet doc f))
      ["employee", "assigned_to", "owner", "created_by"]).bind
    (fun f => docGet doc f)

/-- Membership test against the User table (`frappe.db.exists("User", v)`). -/
def userExists (env : Env) (n : String) : Bool :=
  env.users.any (fun u => u.name == n)

/-- Lookup in the Employee table. -/
def employeeFind (env : Env) (n : String) : Option Employee :=
  env.employees.find? (fun e => e.name == n)

/-- The Employee-branch of `get_users_for_role`: resolve the first populated
document field to a user, directly or via the employee → user link. -/
def employee_field_users (env : Env) (doc : Doc) : Finset String :=
  match first_populated_value doc with
  | none => ∅
  | some v =>
    if userExists env v then {v}
    else
      match employeeFind env v with
      | some emp =>
        match emp.user_id with
        | some u => if u != "" then {u} else ∅
        | none => ∅
      | none => ∅

/-- Model of `frappe.get_roles(user)`. -/
def get_roles (env : Env) (u : String) : List String :=
  (env.hasRoleRows.filter (fun r => r.parent == u && r.parenttype == "User")).map
    (fun r => r.role)

/-- The `Has Role` query of the general branch of `get_users_for_role`. -/
def users_with_role (env : Env) (role : String) : List String :=
  (env.hasRoleRows.filter (fun r => r.role == role && r.parenttype == "User")).map
    (fun r => r.parent)

/-- Model of `get_users_for_role(role, doc)`.  The Employee role resolves only the
document's own actor fields (plus the owner when the owner holds the role);
other roles resolve to every user holding them.  Its try/except returns the
users accumulated so far when a lookup raises. -/
def get_users_for_role (env : Env) (role : String) (doc : Doc) : Finset String :=
  if role = "Employee" then
    let base := employee_field_users env doc
    if truthy (docGet doc "owner") then
      if env.faults.getRoles then base
      else
        let owner := (docGet doc "owner").getD ""
        if (get_roles env owner).contains "Employee" then base ∪ {owner} else base
    else base
  else
    if env.faults.hasRoleQuery then ∅
    else (users_with_role env role).toFinset

/-- One iteration of the transition loop of `get_transition_recipients`:
role := allowed or role; skip when falsy. -/
def transition_step (env : Env) (doc : Doc) (acc : Finset String) (t : TransitionRow) :
    Finset String :=
  match pyOr t.allowed t.role with
  | some r => if r ≠ "" then acc ∪ get_users_for_role env r doc else acc
  | none => acc

/-- The transition loop of `get_transition_recipients`. -/
def transition_loop (env : Env) (doc : Doc) (ts : List TransitionRow) : Finset String :=
  ts.foldl (transition_step env doc) ∅

/-- Child-table scan: transitions whose from-state equals the current state
(empty when the workflow's child table is empty). -/
def matching_child_transitions (wf : Workflow) (cur : String) : List TransitionRow :=
  if wf.transitions.isEmpty then []
  else wf.transitions.filter (fun t => t.state == some cur)

/-- View a stored transition row as a loop row. -/
def DbTransitionRow.toRow (t : DbTransitionRow) : TransitionRow :=
  ⟨t.state, t.next_state, t.allowed, t.role⟩

/-- The direct-query fallback of `get_transition_recipients`:
`frappe.get_all("Workflow Transition", filters={parent, state: current})`,
fallible. -/
def db_transition_query (env : Env) (wfName cur : String) :
    Except Unit (List TransitionRow) :=
  if env.faults.transitionQuery then .error ()
  else .ok ((env.dbTransitions.filter
      (fun t => t.parent == wfName && t.state == some cur)).map DbTransitionRow.toRow)

/-- Model of `get_transition_recipients(doc, workflow, ...)`:
roles of transitions starting FROM the current state, resolved to users; when
the child table yields none, fall back to the direct query.  Its try/except
returns the recipients accumulated so far (none) when the query raises. -/
def get_transition_recipients (env : Env) (doc : Doc) (wf : Workflow) (cur : String)
    (previous_state : Option String) : Finset String :=
  let ts := matching_child_transitions wf cur
  if ts.isEmpty then
    match db_transition_query env wf.name cur with
    | .ok ts2 => transition_loop env doc ts2
    | .error _ => ∅
  else transition_loop env doc ts

/-- One iteration of the extra-recipients loop. -/
def extra_step (env : Env) (doc : Doc) (acc : Finset String) (row : ExtraRecipientRow) :
    Finset String :=
  match row.role with
  | some r => if r ≠ "" then acc ∪ get_users_for_role env r doc else acc
  | none => acc

/-- Model of `get_extra_notification_recipients(doc)`: resolve every role of the
`custom_extra_notification_recipients_` child table. -/
def get_extra_notification_recipients (env : Env) (doc : Doc) : Finset String :=
  if doc.extraRecipients.isEmpty then ∅
  else doc.extraRecipients.foldl (extra_step env doc) ∅

/-- Model of the initiator expression: the owner field when populated, else the session user. -/
def initiatorOf (env : Env) (doc : Doc) : String :=
  match docGet doc "owner" with
  | some o => if o ≠ "" then o else env.sessionUser
  | none => env.sessionUser

/-- Model of `get_notification_recipients`: initiator plus transition-role users plus
extra-recipient users, with empty values filtered out. -/
def get_notification_recipients (env : Env) (doc : Doc) (wf : Workflow) (cur : String)
    (previous_state : Option String) : Finset String :=
  let initiator := initiatorOf env doc
  let r1 : Finset String := if initiator ≠ "" then {initiator} else ∅
  let r2 := r1 ∪ get_transition_recipients env doc wf cur previous_state
  let r3 := r2 ∪ get_extra_notification_recipients env doc
  r3.filter (fun r => r ≠ "")

/-- Does the recipient string contain an "@" (email heuristic)? -/
def hasAtSign (s : String) : Bool :=
  s.toList.contains '@'

/-- Model of the enabled-user lookup by email returning the email column. -/
def userEmailByEmail (env : Env) (e : String) : Option String :=
  (env.users.find? (fun u => u.email == e && u.enabled)).map (fun u => u.email)

/-- Model of the enabled-user lookup by user name returning the email column. -/
def userEmailByName (env : Env) (n : String) : Option String :=
  (env.users.find? (fun u => u.name == n && u.enabled)).map (fun u => u.email)

/-- Email resolution of one recipient in `send_workflow_notifications`. -/
def userEmailLookup (env : Env) (r : String) : Option String :=
  if hasAtSign r then userEmailByEmail env r else userEmailByName env r

/-- The current-user skip of the delivery loop: skip the session user unless
the session user is the initiator. -/
def keepsRecipient (sessionUser initiator r : String) : Bool :=
  if r = sessionUser then decide (r = initiator) else true

/-- One recipient of the delivery loop: the skip filter followed by the
enabled-user email lookup. -/
def recipientEmail (env : Env) (initiator r : String) : Option String :=
  if keepsRecipient env.sessionUser initiator r then userEmailLookup env r else none

/-- The empty-or-singleton email set of one resolved recipient. -/
def optToFinset : Option String → Finset String
  | some e => {e}
  | none => ∅

/-- Model of `send_workflow_notifications(...)`: returns the set of user emails handed
to the single `enqueue_create_notification` call, or `none` when the
transport is not called (Python builds a list from the recipient set; its
order and duplicates are irrelevant here, so the model keeps the set).  A
raised `get_url_to_form` or email lookup is caught by the function's own
try/except, producing no transport call; the lookup only raises when some
recipient actually reaches it past the current-user skip. -/
def send_workflow_notifications (env : Env) (doc : Doc) (wf : Workflow) (cur : String)
    (previous_state : Option String) (recipients : Finset String) : Option (Finset String) :=
  if recipients = ∅ then none
  else if env.faults.getUrl then none
  else
    let initiator := initiatorOf env doc
    if env.faults.emailLookup ∧
        ∃ r ∈ recipients, keepsRecipient env.sessionUser initiator r then none
    else
      let emails := recipients.biUnion (fun r => optToFinset (recipientEmail env initiator r))
      if emails = ∅ then none else some emails

/-- Decidable equality of fallible results, for concrete evaluation. -/
instance exceptDecEq {ε α : Type} [DecidableEq ε] [DecidableEq α] :
    DecidableEq (Except ε α) := fun x y =>
  match x, y with
  | .error a, .error b =>
    if h : a = b then .isTrue (congrArg Except.error h)
    else .isFalse (fun hh => h (Except.error.inj hh))
  | .error _, .ok _ => .isFalse (fun hh => Except.noConfusion hh)
  | .ok _, .error _ => .isFalse (fun hh => Except.noConfusion hh)
  | .ok a, .ok b =>
    if h : a = b then .isTrue (congrArg Except.ok h)
    else .isFalse (fun hh => h (Except.ok.inj hh))

/-- The previous-state block of `handle_workflow_transition` (lines 110-135):
the cached value, with a storage re-query fallback on a cache miss; a
just-created document (cache miss and stored value equal to the current one)
keeps `None` to indicate the initial state; a failing fallback query also
degrades to `None`. -/
def resolve_previous_state (env : Env) (doc : Doc) (sf : String) (c : Cache) :
    Except Unit (Option String) :=
  let current := docGet doc sf
  let prev0 := cacheGet c (cacheKey doc)
  if prev0 = none ∧ doc.docname ≠ "" then
    match dbExistsE env doc.doctype doc.docname with
    | .error e => .error e
    | .ok ex =>
      if ex then
        match dbGetValueFallbackE env doc.doctype doc.docname sf with
        | .ok dbv => .ok (if prev0 = none ∧ dbv = current then none else dbv)
        | .error _ => .ok none
      else .ok prev0
  else .ok prev0

/-- The transition-detection portion of `handle_workflow_transition` (current
state, previous state, no-transition checks).  `.ok none` signals "no
transition"; `.ok (some (prev, cur))` a detected transition; the second
check is Python's `not was_new_document and current == previous`. -/
def detect_transition (env : Env) (doc : Doc) (sf : String) (c : Cache) :
    Except Unit (Option (Option String × String)) :=
  match resolve_previous_state env doc sf c with
  | .error e => .error e
  | .ok previous =>
    match docGet doc sf with
    | none => .ok none
    | some b =>
      if b = "" then .ok none
      else if cacheGet c (cacheKey doc) ≠ none ∧ some b = previous then .ok none
      else .ok (some (previous, b))

/-- Result of the `on_update` hook: the cache after the call and the argument
of the transport call, if any. -/
structure HandleResult where
  cache : Cache
  enqueued : Option (Finset String)
deriving DecidableEq

/-- The big try of `handle_workflow_transition`: resolve the state field,
detect the transition, resolve recipients, send, then clear the cache entry.
The early no-transition returns leave the cache untouched. -/
def handle_body (env : Env) (doc : Doc) (wf : Workflow) (c : Cache) :
    Except Unit HandleResult :=
  match getMeta env doc.doctype with
  | .error e => .error e
  | .ok mf =>
    match resolve_state_field wf mf with
    | none => .ok ⟨c, none⟩
    | some sf =>
      match detect_transition env doc sf c with
      | .error e => .error e
      | .ok none => .ok ⟨c, none⟩
      | .ok (some (previous, b)) =>
        let recipients := get_notification_recipients env doc wf b previous
        .ok ⟨cacheDel c (cacheKey doc),
          if recipients ≠ ∅ then
            send_workflow_notifications env doc wf b previous recipients
          else none⟩

/-- The `on_update` hook: no workflow ⇒ no-op; any escaped error of the body
is swallowed, leaving the cache as-is and calling no transport. -/
def handle_workflow_transition (env : Env) (doc : Doc) (c : Cache) : HandleResult :=
  match get_workflow_for_doctype env doc.doctype with
  | none => ⟨c, none⟩
  | some wf =>
    match handle_body env doc wf c with
    | .ok r => r
    | .error _ => ⟨c, none⟩

/-! ## Specification-side definitions

These definitions restate, in the spec's own vocabulary, the recipient
sources the claims talk about; the theorems below compare them with the
embedded code. -/

/-- The users contributed by one transition row: its allowed role (or `role`
field), resolved to users when non-empty. -/
def transition_role_users (env : Env) (doc : Doc) (t : TransitionRow) : Finset String :=
  match pyOr t.allowed t.role with
  | some r => if r ≠ "" then get_users_for_role env r doc else ∅
  | none => ∅

/-- Spec wording: the workflow transitions whose from-state equals the new
current state. -/
def spec_from_state_transitions (wf : Workflow) (cur : String) : List TransitionRow :=
  wf.transitions.filter (fun t => t.state == some cur)

/-- Spec wording: the users resolved from the roles of workflow transitions
whose from-state equals the new current state. -/
def spec_transition_users (env : Env) (doc : Doc) (wf : Workflow) (cur : String) :
    Finset String :=
  (spec_from_state_transitions wf cur).toFinset.biUnion (transition_role_users env doc)

/-- The users contributed by one extra-recipients row. -/
def extra_row_users (env : Env) (doc : Doc) (row : ExtraRecipientRow) : Finset String :=
  match row.role with
  | some r => if r ≠ "" then get_users_for_role env r doc else ∅
  | none => ∅

/-- Spec wording: the users resolved from roles in the document's
extra-recipients child table. -/
def spec_extra_users (env : Env) (doc : Doc) : Finset String :=
  doc.extraRecipients.toFinset.biUnion (extra_row_users env doc)

/-- Spec wording: the document owner, when the owner independently holds the
Employee role. -/
def owner_if_employee (env : Env) (doc : Doc) : Finset String :=
  match docGet doc "owner" with
  | some o => if o ≠ "" ∧ (get_roles env o).contains "Employee" then {o} else ∅
  | none => ∅

/-- Spec wording: the transition rows stored in the database for this
workflow whose to-state ("next_state") equals the given state; used to state
what claim C6 asserts about the fallback. -/
def db_to_state_transitions (env : Env) (wfName cur : String) : List DbTransitionRow :=
  env.dbTransitions.filter (fun t => t.parent == wfName && t.next_state == some cur)

/-- The transition rows the fallback of the code actually queries: stored
rows whose from-state ("state") equals the given state. -/
def db_from_state_transitions (env : Env) (wfName cur : String) : List TransitionRow :=
  (env.dbTransitions.filter
    (fun t => t.parent == wfName && t.state == some cur)).map DbTransitionRow.toRow

/-! ## Concrete fixtures

Small environments used by the witnesses and counterexamples. -/

/-- An active workflow on doctype Task with one transition FROM Approved. -/
def wfA : Workflow :=
  ⟨"WF-A", "Approval Flow", "Task", true, "workflow_state",
    [⟨some "Approved", some "Done", some "Manager", none⟩]⟩

/-- Environment with `wfA`, a Task schema, two enabled users and one Manager
role holder. -/
def envA : Env :=
  ⟨[wfA], [("Task", ["workflow_state", "owner"])], [], [],
    [⟨"u1", "u1@x.com", true⟩, ⟨"m1", "m1@x.com", true⟩], [],
    [⟨"Manager", "User", "m1"⟩], "Administrator", noFaults⟩

/-- A Task owned by u1 whose current state is Approved. -/
def docA : Doc :=
  ⟨"Task", "T1", [("workflow_state", "Approved"), ("owner", "u1")], []⟩

/-- The same Task still in state Draft (no transition). -/
def docStay : Doc :=
  ⟨"Task", "T1", [("workflow_state", "Draft"), ("owner", "u1")], []⟩

/-- A brand-new Task (no cache entry, no stored row) first seen in Open. -/
def docNew : Doc :=
  ⟨"Task", "T9", [("workflow_state", "Open"), ("owner", "u1")], []⟩

/-- Cache holding the pre-save state Draft for docA / docStay. -/
def cacheA : Cache := [("Task:T1", some "Draft")]

/-- Environment with no workflow at all. -/
def envNoWf : Env :=
  ⟨[], [("Task", ["workflow_state", "owner"])], [], [],
    [⟨"u1", "u1@x.com", true⟩], [], [], "Administrator", noFaults⟩

/-- Environment for the Employee-role example: assignee U5, owner U1, U1 and
two unrelated users hold the Employee role. -/
def env5 : Env :=
  ⟨[], [], [], [],
    [⟨"U5", "u5@x.com", true⟩, ⟨"U1", "u1@x.com", true⟩,
      ⟨"Z1", "z1@x.com", true⟩, ⟨"Z2", "z2@x.com", true⟩],
    [],
    [⟨"Employee", "User", "U1"⟩, ⟨"Employee", "User", "Z1"⟩,
      ⟨"Employee", "User", "Z2"⟩],
    "Administrator", noFaults⟩

/-- Document with assignee U5 and owner U1. -/
def doc5 : Doc :=
  ⟨"Task", "T5", [("assigned_to", "U5"), ("owner", "U1")], []⟩

/-- A workflow whose loaded child table is empty (fallback territory). -/
def wf6 : Workflow := ⟨"WF-B", "Flow B", "Task", true, "workflow_state", []⟩

/-- Environment whose stored transition table has one row whose TO-state is
B (from-state X): claim C6 says the fallback would match it. -/
def env6 : Env :=
  ⟨[wf6], [("Task", ["workflow_state"])], [],
    [⟨"WF-B", some "X", some "B", some "Manager", none⟩],
    [⟨"m1", "m1@x.com", true⟩], [],
    [⟨"Manager", "User", "m1"⟩], "Administrator", noFaults⟩

/-- Environment whose stored transition table has one row whose FROM-state
is B: what the code's fallback actually matches. -/
def env6b : Env :=
  ⟨[wf6], [("Task", ["workflow_state"])], [],
    [⟨"WF-B", some "B", some "C", some "Manager", none⟩],
    [⟨"m1", "m1@x.com", true⟩], [],
    [⟨"Manager", "User", "m1"⟩], "Administrator", noFaults⟩

/-- A bare document for the fallback example. -/
def doc6 : Doc := ⟨"Task", "T6", [], []⟩

/-- Workflow with an empty child table for the fault counterexample. -/
def wf8 : Workflow := ⟨"WF-A", "Approval Flow", "Task", true, "workflow_state", []⟩

/-- Environment where the direct transition query raises
(`faults.transitionQuery`), everything else healthy. -/
def env8 : Env :=
  ⟨[wf8], [("Task", ["workflow_state", "owner"])], [], [],
    [⟨"u1", "u1@x.com", true⟩], [], [], "Administrator",
    ⟨false, false, false, false, false, true, false, false, false, false⟩⟩

/-- Environment where metadata introspection and the storage existence check
both raise (detection-phase faults). -/
def envDetectFault : Env :=
  ⟨[wfA], [("Task", ["workflow_state", "owner"])], [], [],
    [⟨"u1", "u1@x.com", true⟩], [], [], "Administrator",
    ⟨false, true, true, false, false, false, false, false, false, false⟩⟩

/-! ## Helper lemmas -/

theorem lookup_cacheDel (c : Cache) (k : String) : (cacheDel c k).lookup k = none := by
  induction c with
  | nil => rfl
  | cons p c ih =>
    obtain ⟨k1, v⟩ := p
    by_cases h : k1 = k
    · simpa [cacheDel, List.filter_cons, h] using ih
    · have hk : (k == k1) = false := beq_eq_false_iff_ne.mpr (Ne.symm h)
      simpa [cacheDel, List.filter_cons, h, List.lookup, hk] using ih

theorem cacheHasKey_cacheDel (c : Cache) (k : String) :
    cacheHasKey (cacheDel c k) k = false := by
  simp [cacheHasKey, lookup_cacheDel]

theorem resolve_previous_cached (env : Env) (doc : Doc) (sf : String) (c : Cache)
    (a : String) (hc : cacheGet c (cacheKey doc) = some a) :
    resolve_previous_state env doc sf c = .ok (some a) := by
  simp [resolve_previous_state, hc]

theorem detect_transition_cached (env : Env) (doc : Doc) (sf : String) (c : Cache)
    (a : String) (hc : cacheGet c (cacheKey doc) = some a) :
    detect_transition env doc sf c =
      .ok (match docGet doc sf with
        | none => none
        | some b => if b = "" then none else if b = a then none
            else some (some a, b)) := by
  unfold detect_transition
  rw [resolve_previous_cached env doc sf c a hc, hc]
  cases hcur : docGet doc sf with
  | none => rfl
  | some b =>
    by_cases hb : b = "" <;> by_cases hba : b = a <;> simp [hb, hba]

theorem handle_unfold (env : Env) (doc : Doc) (wf : Workflow) (sf : String) (c : Cache)
    (hw : get_workflow_for_doctype env doc.doctype = some wf)
    (hm : env.faults.meta = false)
    (hsf : resolve_state_field wf (metaFieldsOf env doc.doctype) = some sf) :
    handle_workflow_transition env doc c =
      match detect_transition env doc sf c with
      | .error _ => ⟨c, none⟩
      | .ok none => ⟨c, none⟩
      | .ok (some (previous, b)) =>
        ⟨cacheDel c (cacheKey doc),
          if get_notification_recipients env doc wf b previous ≠ ∅ then
            send_workflow_notifications env doc wf b previous
              (get_notification_recipients env doc wf b previous)
          else none⟩ := by
  unfold handle_workflow_transition
  rw [hw]
  unfold handle_body getMeta
  rw [hm]
  simp only [Bool.false_eq_true, if_false, hsf]
  cases hd : detect_transition env doc sf c with
  | error e => rfl
  | ok t =>
    cases t with
    | none => rfl
    | some pb => rfl

/-! ## Claim C7 -/

/-- Claim C7 (confirmed): for every document whose type has no active
workflow, both lifecycle operations are no-ops: `check_workflow_state_change`
writes no cache entry and `handle_workflow_transition` computes no recipients
and triggers no transport call, and neither raises. -/
theorem no_workflow_noop (env : Env) (doc : Doc) (c : Cache)
    (hw : get_workflow_for_doctype env doc.doctype = none) :
    check_workflow_state_change env doc c = c ∧
      handle_workflow_transition env doc c = ⟨c, none⟩ := by
  unfold check_workflow_state_change handle_workflow_transition
  rw [hw]
  exact ⟨rfl, rfl⟩

/-- Witness for C7 at a concrete workflow-less environment. -/
theorem no_workflow_noop_witness :
    check_workflow_state_change envNoWf docA [] = [] ∧
      handle_workflow_transition envNoWf docA [] = ⟨[], none⟩ :=
  no_workflow_noop envNoWf docA [] rfl

/-- Shared helper: a cached value implies the key is present. -/
theorem cacheHasKey_of_cacheGet (c : Cache) (k : String) (a : String)
    (hc : cacheGet c k = some a) : cacheHasKey c k = true := by
  unfold cacheGet at hc
  unfold cacheHasKey
  cases hl : c.lookup k with
  | none => rw [hl] at hc; simp at hc
  | some v => simp

/-! ## Claim C1 -/

/-- Claim C1 (confirmed): for a document with an active workflow whose state
field resolves and whose cached prior state is `a`: if the current state `b`
is non-empty and differs from `a`, detection yields the transition `(a, b)`
and `handle_workflow_transition` proceeds to recipient resolution (and to the
transport when recipients exist); if the current state equals `a` it signals
no transition and stops; if the current state is empty it signals no
transition and stops. -/
theorem detect_on_cached_prior (env : Env) (doc : Doc) (wf : Workflow) (sf : String)
    (c : Cache) (a : String)
    (hw : get_workflow_for_doctype env doc.doctype = some wf)
    (hm : env.faults.meta = false)
    (hsf : resolve_state_field wf (metaFieldsOf env doc.doctype) = some sf)
    (hc : cacheGet c (cacheKey doc) = some a) :
    (∀ b : String, docGet doc sf = some b → b ≠ "" → b ≠ a →
      detect_transition env doc sf c = .ok (some (some a, b)) ∧
      handle_workflow_transition env doc c =
        ⟨cacheDel c (cacheKey doc),
          if get_notification_recipients env doc wf b (some a) ≠ ∅ then
            send_workflow_notifications env doc wf b (some a)
              (get_notification_recipients env doc wf b (some a))
          else none⟩) ∧
    (docGet doc sf = some a →
      detect_transition env doc sf c = .ok none ∧
      handle_workflow_transition env doc c = ⟨c, none⟩) ∧
    (truthy (docGet doc sf) = false →
      detect_transition env doc sf c = .ok none ∧
      handle_workflow_transition env doc c = ⟨c, none⟩) := by
  have hdet := detect_transition_cached env doc sf c a hc
  have hh := handle_unfold env doc wf sf c hw hm hsf
  refine ⟨?_, ?_, ?_⟩
  · intro b hb hbe hba
    rw [hb] at hdet
    simp [hbe, hba] at hdet
    exact ⟨hdet, by rw [hh, hdet]⟩
  · intro hb
    rw [hb] at hdet
    by_cases ha : a = ""
    · simp [ha] at hdet
      exact ⟨hdet, by rw [hh, hdet]⟩
    · simp [ha] at hdet
      exact ⟨hdet, by rw [hh, hdet]⟩
  · intro htr
    cases hcur : docGet doc sf with
    | none =>
      rw [hcur] at hdet
      exact ⟨hdet, by rw [hh, hdet]⟩
    | some b =>
      rw [hcur] at htr
      have hb : b = "" := by simpa [truthy] using htr
      rw [hcur, hb] at hdet
      simp at hdet
      exact ⟨hdet, by rw [hh, hdet]⟩

/-- Witness for C1: the Draft to Approved transition of the fixture is
detected and handed to recipient resolution. -/
theorem detect_on_cached_prior_witness :
    detect_transition envA docA "workflow_state" cacheA =
      .ok (some (some "Draft", "Approved")) ∧
    handle_workflow_transition envA docA cacheA =
      ⟨cacheDel cacheA (cacheKey docA),
        if get_notification_recipients envA docA wfA "Approved" (some "Draft") ≠ ∅ then
          send_workflow_notifications envA docA wfA "Approved" (some "Draft")
            (get_notification_recipients envA docA wfA "Approved" (some "Draft"))
        else none⟩ :=
  (detect_on_cached_prior envA docA wfA "workflow_state" cacheA "Draft"
    rfl rfl rfl rfl).1 "Approved" rfl (by decide) (by decide)

/-! ## Claim C3 -/

/-- Claim C3 (confirmed): a brand-new document (no cached prior state) whose
first observed state `s` is non-empty is detected as an initial transition
from `none` to `s` — also in the edge case where the re-queried stored value
already equals `s` — rather than as no transition. -/
theorem new_document_initial_transition (env : Env) (doc : Doc) (sf : String)
    (c : Cache) (s : String)
    (hdb : env.faults.dbExists = false)
    (hc : cacheGet c (cacheKey doc) = none)
    (hcur : docGet doc sf = some s) (hs : s ≠ "")
    (hcase : doc.docname = "" ∨ dbFind env doc.doctype doc.docname = none ∨
      dbGetValue env doc.doctype doc.docname sf = some s) :
    detect_transition env doc sf c = .ok (some (none, s)) := by
  have hprev : resolve_previous_state env doc sf c = .ok none := by
    by_cases hn : doc.docname = ""
    · simp [resolve_previous_state, hc, hn]
    · rcases hcase with h1 | h2 | h3
      · exact absurd h1 hn
      · simp [resolve_previous_state, hc, hn, dbExistsE, hdb, h2]
      · simp only [resolve_previous_state, hc, hn, dbExistsE, hdb,
          Bool.false_eq_true, if_false]
        by_cases hex : (dbFind env doc.doctype doc.docname).isSome
        · simp only [hex, dbGetValueFallbackE]
          by_cases hf : env.faults.getValueFallback
          · simp [hf, hn]
          · simp [hf, hn, h3, hcur]
        · simp [hex, hn]
  unfold detect_transition
  rw [hprev, hcur]
  simp [hs, hc]

/-- Witness for C3: a brand-new Task first observed in Open yields the
initial transition. -/
theorem new_document_initial_transition_witness :
    detect_transition envA docNew "workflow_state" [] = .ok (some (none, "Open")) :=
  new_document_initial_transition envA docNew "workflow_state" [] "Open"
    rfl rfl rfl (by decide) (Or.inr (Or.inl rfl))

/-! ## Claim C4 -/

/-- Counterexample to claim C4 as stated: with an active workflow, a resolved
state field and a cached prior state equal to the current state (no
transition detected), `handle_workflow_transition` returns early and the
cache entry is NOT deleted — the key survives the call. -/
theorem cache_entry_survives_no_transition :
    get_workflow_for_doctype envA docStay.doctype = some wfA ∧
    handle_workflow_transition envA docStay cacheA = ⟨cacheA, none⟩ ∧
    cacheHasKey (handle_workflow_transition envA docStay cacheA).cache
      (cacheKey docStay) = true := by
  exact ⟨rfl, by decide, by decide⟩

/-- Claim C4 (corrected): after `handle_workflow_transition`, the cache entry
is deleted when a transition is detected (non-empty current state differing
from the cached prior state); when no transition is detected (current state
empty, or equal to the cached prior state) the function returns early and the
entry is retained. -/
theorem cache_entry_deletion (env : Env) (doc : Doc) (wf : Workflow) (sf : String)
    (c : Cache) (a : String)
    (hw : get_workflow_for_doctype env doc.doctype = some wf)
    (hm : env.faults.meta = false)
    (hsf : resolve_state_field wf (metaFieldsOf env doc.doctype) = some sf)
    (hc : cacheGet c (cacheKey doc) = some a) :
    (∀ b : String, docGet doc sf = some b → b ≠ "" → b ≠ a →
      cacheHasKey (handle_workflow_transition env doc c).cache (cacheKey doc) = false) ∧
    ((docGet doc sf = some a ∨ truthy (docGet doc sf) = false) →
      (handle_workflow_transition env doc c).cache = c ∧
      cacheHasKey (handle_workflow_transition env doc c).cache (cacheKey doc) = true) := by
  have hdet := detect_transition_cached env doc sf c a hc
  have hh := handle_unfold env doc wf sf c hw hm hsf
  constructor
  · intro b hb hbe hba
    rw [hb] at hdet
    simp [hbe, hba] at hdet
    rw [hh, hdet]
    simpa using cacheHasKey_cacheDel c (cacheKey doc)
  · intro hcase
    have hdn : detect_transition env doc sf c = .ok none := by
      rcases hcase with hb | ht
      · rw [hb] at hdet
        by_cases ha : a = ""
        · simpa [ha] using hdet
        · simpa [ha] using hdet
      · cases hcur : docGet doc sf with
        | none => rw [hcur] at hdet; exact hdet
        | some b =>
          rw [hcur] at ht
          have hb : b = "" := by simpa [truthy] using ht
          rw [hcur, hb] at hdet
          simpa using hdet
    have hres : handle_workflow_transition env doc c = ⟨c, none⟩ := by rw [hh, hdn]
    rw [hres]
    exact ⟨rfl, cacheHasKey_of_cacheGet c (cacheKey doc) a hc⟩

/-- Witness for C4 (amended): on the detected Draft to Approved transition
the fixture's cache entry is gone afterwards. -/
theorem cache_entry_deletion_witness :
    cacheHasKey (handle_workflow_transition envA docA cacheA).cache
      (cacheKey docA) = false :=
  (cache_entry_deletion envA docA wfA "workflow_state" cacheA "Draft"
    rfl rfl rfl rfl).1 "Approved" rfl (by decide) (by decide)

/-! ## Claim C8 -/

/-- Counterexample to claim C8 as stated: with a storage exception raised by
the transition query (a storage failure during recipient resolution), the
save still completes AND the transport IS called — with the owner as sole
recipient — contradicting "the notification transport is not called". -/
theorem fault_still_calls_transport :
    env8.faults.transitionQuery = true ∧
    (handle_workflow_transition env8 docA cacheA).enqueued.isSome = true ∧
    (handle_workflow_transition env8 docA cacheA).enqueued.getD ∅ = {"u1@x.com"} := by
  exact ⟨rfl, by decide, by decide⟩

/-- Claim C8 (corrected): no exception ever escapes either hook — the
embedded handlers convert every fault into a normal return.  A
metadata/existence exception during the detection phase makes the save
complete as a strict no-op: no cache change and no transport call.  (An
exception confined to recipient sub-resolution, however, may still produce a
transport call with the reduced recipient set, per the counterexample.) -/
theorem detection_fault_noop (env : Env) (doc : Doc) (c : Cache)
    (hm : env.faults.meta = true) (hex : env.faults.dbExists = true)
    (hn : doc.docname ≠ "") :
    check_workflow_state_change env doc c = c ∧
      handle_workflow_transition env doc c = ⟨c, none⟩ := by
  constructor
  · cases hw : get_workflow_for_doctype env doc.doctype with
    | none => simp [check_workflow_state_change, hw]
    | some wf => simp [check_workflow_state_change, hw, check_body, dbExistsE, hex, hn]
  · cases hw : get_workflow_for_doctype env doc.doctype with
    | none => simp [handle_workflow_transition, hw]
    | some wf => simp [handle_workflow_transition, hw, handle_body, getMeta, hm]

/-- Witness for C8 (amended): under detection-phase faults the fixture save
is a strict no-op. -/
theorem detection_fault_noop_witness :
    check_workflow_state_change envDetectFault docA [] = [] ∧
      handle_workflow_transition envDetectFault docA [] = ⟨[], none⟩ :=
  detection_fault_noop envDetectFault docA [] rfl rfl (by decide)

/-! ## Claim C2 -/

/-- Shared helper: a fold of a union-shaped step function is the union of
the per-element contributions. -/
theorem foldl_union_eq {α : Type} [DecidableEq α] (f : α → Finset String)
    (g : Finset String → α → Finset String) (hg : ∀ acc t, g acc t = acc ∪ f t) :
    ∀ (l : List α) (init : Finset String),
      l.foldl g init = init ∪ l.toFinset.biUnion f := by
  intro l
  induction l with
  | nil => intro init; simp
  | cons a l ih =>
    intro init
    rw [List.foldl_cons, hg, ih, List.toFinset_cons, Finset.biUnion_insert]
    exact Finset.union_assoc _ _ _

/-- The transition loop step adds exactly the row's role users. -/
theorem transition_step_eq (env : Env) (doc : Doc) (acc : Finset String)
    (t : TransitionRow) :
    transition_step env doc acc t = acc ∪ transition_role_users env doc t := by
  unfold transition_step transition_role_users
  cases h : pyOr t.allowed t.role with
  | none => simp
  | some r => by_cases hr : r = "" <;> simp [hr]

/-- The extra-recipients loop step adds exactly the row's role users. -/
theorem extra_step_eq (env : Env) (doc : Doc) (acc : Finset String)
    (row : ExtraRecipientRow) :
    extra_step env doc acc row = acc ∪ extra_row_users env doc row := by
  unfold extra_step extra_row_users
  cases h : row.role with
  | none => simp
  | some r => by_cases hr : r = "" <;> simp [hr]

/-- The transition loop is the union of the per-row role users. -/
theorem transition_loop_eq (env : Env) (doc : Doc) (ts : List TransitionRow) :
    transition_loop env doc ts = ts.toFinset.biUnion (transition_role_users env doc) := by
  unfold transition_loop
  rw [foldl_union_eq (transition_role_users env doc) (transition_step env doc)
    (transition_step_eq env doc) ts ∅]
  simp

/-- The extra-recipients resolver is the union of the per-row role users. -/
theorem get_extra_eq (env : Env) (doc : Doc) :
    get_extra_notification_recipients env doc = spec_extra_users env doc := by
  unfold get_extra_notification_recipients spec_extra_users
  by_cases he : doc.extraRecipients.isEmpty
  · have hnil : doc.extraRecipients = [] := List.isEmpty_iff.mp he
    simp [he, hnil]
  · rw [if_neg he, foldl_union_eq (extra_row_users env doc) (extra_step env doc)
      (extra_step_eq env doc) _ ∅]
    simp

/-- Claim C2 (confirmed): when the workflow's child table contains at least
one transition whose from-state equals the new current state, the resolved
recipient collection equals the union of the three sources — the initiator
(owner, or session user when owner is absent), the users resolved from the
roles of transitions whose from-state equals the new current state, and the
users resolved from the extra-recipients child table — deduplicated (a
`Finset`) and with empty values filtered out. -/
theorem recipients_three_source_union (env : Env) (doc : Doc) (wf : Workflow)
    (cur : String) (previous : Option String)
    (hne : spec_from_state_transitions wf cur ≠ []) :
    get_notification_recipients env doc wf cur previous =
      ({initiatorOf env doc} ∪ spec_transition_users env doc wf cur ∪
        spec_extra_users env doc).filter (fun r => r ≠ "") := by
  have htr : get_transition_recipients env doc wf cur previous =
      spec_transition_users env doc wf cur := by
    unfold get_transition_recipients matching_child_transitions
    have h1 : ¬ wf.transitions.isEmpty = true := by
      intro h
      apply hne
      unfold spec_from_state_transitions
      rw [List.isEmpty_iff.mp h]
      rfl
    rw [if_neg h1]
    have h2 : ¬ (wf.transitions.filter (fun t => t.state == some cur)).isEmpty = true := by
      intro h
      exact hne (List.isEmpty_iff.mp h)
    rw [if_neg h2]
    unfold spec_transition_users spec_from_state_transitions
    exact transition_loop_eq env doc _
  simp only [get_notification_recipients]
  rw [htr, get_extra_eq]
  by_cases hi : initiatorOf env doc ≠ ""
  · rw [if_pos hi]
  · rw [if_neg hi]
    push_neg at hi
    ext x
    simp only [Finset.mem_filter, Finset.mem_union, Finset.mem_singleton,
      Finset.not_mem_empty, Finset.empty_union, hi]
    tauto

/-- Witness for C2 at the fixture transition. -/
theorem recipients_three_source_union_witness :
    get_notification_recipients envA docA wfA "Approved" (some "Draft") =
      ({initiatorOf envA docA} ∪ spec_transition_users envA docA wfA "Approved" ∪
        spec_extra_users envA docA).filter (fun r => r ≠ "") :=
  recipients_three_source_union envA docA wfA "Approved" (some "Draft") (by decide)

/-! ## Claim C5 -/

/-- The employee-field resolution contributes at most one user. -/
theorem employee_field_users_card (env : Env) (doc : Doc) :
    (employee_field_users env doc).card ≤ 1 := by
  unfold employee_field_users
  repeat' split
  all_goals simp

/-- The owner contribution is at most one user. -/
theorem owner_if_employee_card (env : Env) (doc : Doc) :
    (owner_if_employee env doc).card ≤ 1 := by
  unfold owner_if_employee
  repeat' split
  all_goals simp

/-- Claim C5 (confirmed): resolving the role "Employee" yields exactly the
user resolved from the first populated field among employee, assigned_to,
owner, created_by (directly, or via the employee-user link) together with the
owner when the owner independently holds the Employee role; in particular at
most two users, never the set of all Employee-role holders.  Any other role
resolves to all users holding it. -/
theorem employee_role_resolution (env : Env) (doc : Doc)
    (hf : env.faults = noFaults) :
    get_users_for_role env "Employee" doc =
      employee_field_users env doc ∪ owner_if_employee env doc ∧
    (get_users_for_role env "Employee" doc).card ≤ 2 ∧
    (∀ role, role ≠ "Employee" →
      get_users_for_role env role doc = (users_with_role env role).toFinset) := by
  have hgr : env.faults.getRoles = false := by rw [hf]; rfl
  have hhr : env.faults.hasRoleQuery = false := by rw [hf]; rfl
  have h1 : get_users_for_role env "Employee" doc =
      employee_field_users env doc ∪ owner_if_employee env doc := by
    unfold get_users_for_role owner_if_employee
    rw [if_pos rfl]
    cases ho : docGet doc "owner" with
    | none => simp [truthy]
    | some o =>
      by_cases hoe : o = ""
      · simp [truthy, hoe]
      · by_cases hcont : "Employee" ∈ get_roles env o
        · simp [truthy, hoe, hgr, hcont]
        · simp [truthy, hoe, hgr, hcont]
  refine ⟨h1, ?_, ?_⟩
  · rw [h1]
    calc (employee_field_users env doc ∪ owner_if_employee env doc).card
        ≤ (employee_field_users env doc).card + (owner_if_employee env doc).card :=
          Finset.card_union_le _ _
      _ ≤ 2 := by
          have ha := employee_field_users_card env doc
          have hb := owner_if_employee_card env doc
          omega
  · intro role hrole
    unfold get_users_for_role
    rw [if_neg hrole]
    simp [hhr]

/-- Witness for C5: in the fixture with assignee U5 and owner U1 (U1 holding
Employee among several role holders) the Employee resolution is the union of
the two small contributions, of size at most two; Manager resolves to all
Manager holders. -/
theorem employee_role_resolution_witness :
    get_users_for_role env5 "Employee" doc5 =
      employee_field_users env5 doc5 ∪ owner_if_employee env5 doc5 ∧
    (get_users_for_role env5 "Employee" doc5).card ≤ 2 ∧
    get_users_for_role env5 "Manager" doc5 = (users_with_role env5 "Manager").toFinset := by
  have h := employee_role_resolution env5 doc5 rfl
  exact ⟨h.1, h.2.1, h.2.2 "Manager" (by decide)⟩

/-! ## Claim C6 -/

/-- Counterexample to claim C6 as stated: the child table is empty, the
stored transition table contains a row whose TO-state equals the current
state B (from-state X) with a resolvable role, yet the fallback returns no
recipients — the code filters on the from-state field, not on candidate
to-state field names, under which this row would contribute m1. -/
theorem fallback_ignores_to_state :
    get_transition_recipients env6 doc6 wf6 "B" none = ∅ ∧
    db_to_state_transitions env6 wf6.name "B" ≠ [] ∧
    ((db_to_state_transitions env6 wf6.name "B").map DbTransitionRow.toRow).toFinset.biUnion
      (transition_role_users env6 doc6) = {"m1"} := by
  exact ⟨by decide, by decide, by decide⟩

/-- Claim C6 (corrected): when the child-table scan finds no transition whose
from-state equals the new current state, the resolver falls back to querying
the stored Workflow Transition rows of the workflow filtered by the SAME
from-state condition (state = current state) — not by candidate to-state
field names — and resolves each matched row's allowed (or role) field to
users. -/
theorem fallback_queries_from_state (env : Env) (doc : Doc) (wf : Workflow)
    (cur : String) (previous : Option String)
    (hempty : spec_from_state_transitions wf cur = [])
    (hq : env.faults.transitionQuery = false) :
    get_transition_recipients env doc wf cur previous =
      (db_from_state_transitions env wf.name cur).toFinset.biUnion
        (transition_role_users env doc) := by
  unfold get_transition_recipients matching_child_transitions
  unfold spec_from_state_transitions at hempty
  have hl : (if wf.transitions.isEmpty then []
      else wf.transitions.filter (fun t => t.state == some cur)) = [] := by
    by_cases h : wf.transitions.isEmpty
    · rw [if_pos h]
    · rw [if_neg h]; exact hempty
  rw [hl]
  simp only [List.isEmpty_nil, if_true]
  unfold db_transition_query
  rw [hq]
  simp only [Bool.false_eq_true, if_false]
  unfold db_from_state_transitions
  exact transition_loop_eq env doc _

/-- Witness for C6 (amended): with an empty child table and a stored row
whose from-state is B, the fallback resolves that row's role. -/
theorem fallback_queries_from_state_witness :
    get_transition_recipients env6b doc6 wf6 "B" none =
      (db_from_state_transitions env6b wf6.name "B").toFinset.biUnion
        (transition_role_users env6b doc6) :=
  fallback_queries_from_state env6b doc6 wf6 "B" none rfl rfl

/-! ## Claim C9 -/

/-- The delivery-loop skip keeps a recipient iff they are not the session
user or are the initiator. -/
theorem keepsRecipient_iff (su init r : String) :
    keepsRecipient su init r = true ↔ (r ≠ su ∨ r = init) := by
  unfold keepsRecipient
  by_cases h : r = su
  · simp [h]
  · simp [h]

/-- Claim C9 (confirmed): during delivery, a resolved recipient equal to the
current session user contributes nothing unless that user is also the
initiator (the owner, or the session user when the owner is absent); every
other recipient goes through the email lookup, and the initiator is always
retained by the skip filter even when acting on their own document. -/
theorem session_user_skip (env : Env) (doc : Doc) (wf : Workflow) (cur : String)
    (previous : Option String) (recipients : Finset String)
    (hr : recipients ≠ ∅) (hu : env.faults.getUrl = false)
    (he : env.faults.emailLookup = false) :
    send_workflow_notifications env doc wf cur previous recipients =
      (if recipients.biUnion (fun r =>
          if r ≠ env.sessionUser ∨ r = initiatorOf env doc
          then optToFinset (userEmailLookup env r) else ∅) = ∅ then none
       else some (recipients.biUnion (fun r =>
          if r ≠ env.sessionUser ∨ r = initiatorOf env doc
          then optToFinset (userEmailLookup env r) else ∅))) ∧
    keepsRecipient env.sessionUser (initiatorOf env doc) (initiatorOf env doc) = true := by
  constructor
  · unfold send_workflow_notifications
    rw [if_neg hr]
    simp only [hu, Bool.false_eq_true, if_false, he, false_and]
    have hpt : ∀ r, optToFinset (recipientEmail env (initiatorOf env doc) r) =
        (if r ≠ env.sessionUser ∨ r = initiatorOf env doc
         then optToFinset (userEmailLookup env r) else ∅) := by
      intro r
      unfold recipientEmail
      by_cases hk : keepsRecipient env.sessionUser (initiatorOf env doc) r = true
      · rw [if_pos hk, if_pos ((keepsRecipient_iff _ _ _).mp hk)]
      · rw [if_neg hk, if_neg (fun hp => hk ((keepsRecipient_iff _ _ _).mpr hp))]
        rfl
    rw [Finset.biUnion_congr rfl (fun r _ => hpt r)]
  · exact (keepsRecipient_iff _ _ _).mpr (Or.inr rfl)

/-- Witness for C9: fixture delivery where the session user Administrator is
among the resolved recipients but is not the initiator. -/
theorem session_user_skip_witness :
    send_workflow_notifications envA docA wfA "Approved" (some "Draft")
        {"u1", "Administrator"} =
      (if ({"u1", "Administrator"} : Finset String).biUnion (fun r =>
          if r ≠ envA.sessionUser ∨ r = initiatorOf envA docA
          then optToFinset (userEmailLookup envA r) else ∅) = ∅ then none
       else some (({"u1", "Administrator"} : Finset String).biUnion (fun r =>
          if r ≠ envA.sessionUser ∨ r = initiatorOf envA docA
          then optToFinset (userEmailLookup envA r) else ∅))) ∧
    keepsRecipient envA.sessionUser (initiatorOf envA docA) (initiatorOf envA docA) = true :=
  session_user_skip envA docA wfA "Approved" (some "Draft") {"u1", "Administrator"}
    (by decide) rfl rfl

/-! ## Claim C10 -/

/-- A resolved recipient email always belongs to an enabled user record. -/
theorem recipientEmail_enabled (env : Env) (init r e : String)
    (h : recipientEmail env init r = some e) :
    ∃ u ∈ env.users, u.enabled = true ∧ u.email = e := by
  unfold recipientEmail at h
  by_cases hk : keepsRecipient env.sessionUser init r = true
  · rw [if_pos hk] at h
    unfold userEmailLookup at h
    by_cases ha : hasAtSign r = true
    · rw [if_pos ha] at h
      unfold userEmailByEmail at h
      obtain ⟨u, hu, hmap⟩ := Option.map_eq_some'.mp h
      refine ⟨u, List.mem_of_find?_eq_some hu, ?_, hmap⟩
      have hp := List.find?_some hu
      simp only [Bool.and_eq_true, beq_iff_eq] at hp
      exact hp.2
    · rw [if_neg ha] at h
      unfold userEmailByName at h
      obtain ⟨u, hu, hmap⟩ := Option.map_eq_some'.mp h
      refine ⟨u, List.mem_of_find?_eq_some hu, ?_, hmap⟩
      have hp := List.find?_some hu
      simp only [Bool.and_eq_true, beq_iff_eq] at hp
      exact hp.2
  · rw [if_neg hk] at h
    exact absurd h (by simp)

/-- Claim C10 (confirmed): delivery only targets emails of enabled User
records — looked up by email when the recipient contains "@", otherwise by
user name; recipients that do not map to an enabled user are silently
dropped, and when no recipient survives the transport is not called. -/
theorem delivery_enabled_users_only (env : Env) (doc : Doc) (wf : Workflow)
    (cur : String) (previous : Option String) (recipients : Finset String)
    (hf : env.faults = noFaults) :
    (∀ emails, send_workflow_notifications env doc wf cur previous recipients =
        some emails →
      ∀ e ∈ emails, ∃ u ∈ env.users, u.enabled = true ∧ u.email = e) ∧
    (recipients.biUnion (fun r =>
        optToFinset (recipientEmail env (initiatorOf env doc) r)) = ∅ →
      send_workflow_notifications env doc wf cur previous recipients = none) ∧
    (∀ r, (hasAtSign r = true → userEmailLookup env r = userEmailByEmail env r) ∧
      (hasAtSign r = false → userEmailLookup env r = userEmailByName env r)) := by
  have hu : env.faults.getUrl = false := by rw [hf]; rfl
  have he : env.faults.emailLookup = false := by rw [hf]; rfl
  refine ⟨?_, ?_, ?_⟩
  · intro emails hsend e hmem
    unfold send_workflow_notifications at hsend
    by_cases hrec : recipients = ∅
    · rw [if_pos hrec] at hsend
      exact absurd hsend (by simp)
    · rw [if_neg hrec] at hsend
      simp only [hu, Bool.false_eq_true, if_false, he, false_and] at hsend
      by_cases hb : recipients.biUnion (fun r =>
          optToFinset (recipientEmail env (initiatorOf env doc) r)) = ∅
      · rw [if_pos hb] at hsend
        exact absurd hsend (by simp)
      · rw [if_neg hb] at hsend
        have hemails := Option.some.inj hsend
        rw [← hemails] at hmem
        obtain ⟨r, hrr, hre⟩ := Finset.mem_biUnion.mp hmem
        cases hrem : recipientEmail env (initiatorOf env doc) r with
        | none =>
          rw [hrem] at hre
          exact absurd hre (by simp [optToFinset])
        | some e2 =>
          rw [hrem] at hre
          have he2 : e = e2 := by simpa [optToFinset] using hre
          exact recipientEmail_enabled env (initiatorOf env doc) r e (he2 ▸ hrem)
  · intro hb
    unfold send_workflow_notifications
    by_cases hrec : recipients = ∅
    · rw [if_pos hrec]
    · rw [if_neg hrec]
      simp only [hu, Bool.false_eq_true, if_false, he, false_and]
      rw [if_pos hb]
  · intro r
    constructor
    · intro h
      simp [userEmailLookup, h]
    · intro h
      simp [userEmailLookup, h]

/-- Witness for C10: a recipient that maps to no enabled user yields no
transport call. -/
theorem delivery_enabled_users_only_witness :
    send_workflow_notifications envA docA wfA "Approved" (some "Draft")
      {"ghost"} = none :=
  (delivery_enabled_users_only envA docA wfA "Approved" (some "Draft")
    {"ghost"} rfl).2.1 (by decide)
